import Mathlib

/-!
Shallow embedding of the ingestion core of the smc_benchmark repository
(src/smc_benchmark/read.py together with the column registry in
src/smc_benchmark/_naming.py), and proofs of the frozen claims about it.

Modelling conventions:
* A pandas DataFrame is a column-oriented table: a list of
  (column name, list of rational values).  Machine floats are modelled by
  rationals; every numeric operation performed by the readers (negation,
  addition of a constant, scaling by 1000, subtraction) is exact at the
  concrete values the claims use.
* File input and parsing by pandas or numpy is abstracted: a data file
  carries the outcome of parsing its body into raw columns
  (an Except value; an error models an unreadable or structurally
  malformed file, the ParseError of the specification), and the outcome
  of decoding its filename stem.
* Printing used for diagnostics is modelled by returned values: read
  returns the catalog together with the n_files_read count that the
  source prints, and the error-log filter returns the list of warnings
  it prints alongside the list of excluded filenames.
-/

namespace SMC

/-! ### Column names, from src/smc_benchmark/_naming.py -/

def GAP : String := "h"

def TIME : String := "t"

def TEMP : String := "T"

def FORCE : String := "F"

def DISPLACEMENT : String := "d"

def VELOCITY : String := "v"

/-- KIT_NAMING = {0: TIME, 2: FORCE, 3: DISPLACEMENT, 4: GAP}: an index map,
used by _read_kit to select and name raw columns by position. -/
def KIT_NAMING : List (Nat × String) :=
  [(0, TIME), (2, FORCE), (3, DISPLACEMENT), (4, GAP)]

def UTW_NAMING : List String := [TIME, GAP, FORCE, "L1", "L2"]

def KUL_NAMING : List String := [TIME, DISPLACEMENT, FORCE]

def JKU_NAMING : List String := [TIME, TEMP, GAP, DISPLACEMENT, FORCE]

def ECN_NAMING : List String := [TIME, FORCE, DISPLACEMENT, GAP, TEMP]

/-- RISE_NAMING contains a Python None entry for an unused trailing column;
it is modelled as .none and the column it names is dropped (the reader
never references it). -/
def RISE_NAMING : List (Option String) :=
  [some TIME, some "Cycle Elapsed Time", some "Total Cycles", some "Elapsed Cycles",
   some "Step", some "Total Cycle Count(8800 (10.0.0.2 : 0) Waveform)",
   some DISPLACEMENT, some FORCE, none]

def TUM_NAMING : List String := [FORCE, GAP, DISPLACEMENT, TEMP]

def UOB_NAMING : List String :=
  [TIME, "CycleElapsedTime_s_", "TotalCycles", "ElapsedCycles", "Step",
   "TotalCycleCount_8800_0_3_Waveform_", GAP, FORCE]

def WMG_NAMING : List String :=
  [TIME, GAP, "LVDT - Cavity Height", FORCE, "Pressure 1-5816604",
   "Pressure 2-5816605", "Pressure 3-5816606", "Pressure 4-5832804",
   "Pressure 5-5832805"]

/-- Modelled from the spec: read.py imports IVW_NAMING from
smc_benchmark._naming, but its definition is not among the provided
sources (only the import and the use in _read_ivw are).  Per the spec,
the column-schema registry holds one schema per institution and the
normalized table must carry at least gap and force; the exact raw column
list for ivw is unknown, so a minimal schema with the canonical fields
referenced by _read_ivw is used. -/
def IVW_NAMING : List String := [TIME, GAP, FORCE]

/-! ### Institution labels and static tables from read.py -/

def CONFIG1 : String := "3mm 100x100"

def CONFIG2 : String := "3mm 50x50"

def CONFIG3 : String := "5mm 100x100"

def CONFIG4 : String := "7mm 100x100"

def CONFIG5 : String := "5mm 50x50"

def CONFIG6 : String := "7mm 50x50"

def KIT : String := "kit"

def UTW : String := "utw"

def KUL : String := "kul"

def ECN : String := "ecn"

def RISE : String := "rise"

def TUM : String := "tum"

def UOB : String := "uob"

def WMG : String := "wmg"

def JKU : String := "jku"

def IVW : String := "ivw"

def CONFIG_TO_NUMBER_KIT : List (String × List Nat) :=
  [(CONFIG1, [3, 7, 11, 15, 19, 23]),
   (CONFIG2, [4, 8, 12, 16, 20, 24]),
   (CONFIG3, [2, 6, 10, 14, 18, 22]),
   (CONFIG4, [1, 5, 9, 13, 17, 21])]

def CONFIG_TO_NUMBER_JKU : List (String × List Nat) :=
  [(CONFIG1, [4, 8, 12, 16, 20, 24]),
   (CONFIG2, [3, 7, 11, 15, 19, 23]),
   (CONFIG5, [2, 6, 10, 14, 18, 22]),
   (CONFIG6, [1, 5, 9, 13, 17, 21])]

def CONFIG_TO_NUMBER_UOB : List (String × List Nat) :=
  [(CONFIG6, [1, 5, 9, 13, 17, 21]),
   (CONFIG5, [2, 6, 10, 14, 18, 22]),
   (CONFIG2, [3, 7, 11, 15, 19, 23])]

def CONFIG_TO_NUMBER_RISE : List (String × List Nat) :=
  [(CONFIG2, [3, 7, 11, 15, 19, 23]),
   (CONFIG5, [2, 6, 10, 14, 18, 22]),
   (CONFIG6, [1, 5, 9, 13, 17, 21])]

def CONFIG_TO_NUMBER_TUM : List (String × List Nat) :=
  [(CONFIG1, [3, 7, 11, 15, 19, 20, 23]),
   (CONFIG2, [4, 8, 12, 16, 24]),
   (CONFIG3, [2, 6, 10, 14, 18, 22]),
   (CONFIG4, [1, 5, 9, 13, 17, 21])]

/-- NUMBER_TO_CONFIG_X = {v: k for k, values in CONFIG_TO_NUMBER_X.items()
for v in values}.  The number lists of each forward map are pairwise
disjoint, so the first configuration whose list contains the number is
the unique one, and first-match lookup equals the inverted dict. -/
def numberToConfig (fwd : List (String × List Nat)) (n : Nat) : Option String :=
  (fwd.find? (fun p => p.2.contains n)).map (fun p => p.1)

/-- Configuration resolution of read.py lines 162 to 176: jku, uob, rise
and tum use their own inverted maps, every other institution falls to the
else branch and uses NUMBER_TO_CONFIG_KIT.  A KeyError of the Python dict
lookup is the none case. -/
def configOf (inst : String) (number : Nat) : Option String :=
  if inst = JKU then numberToConfig CONFIG_TO_NUMBER_JKU number
  else if inst = UOB then numberToConfig CONFIG_TO_NUMBER_UOB number
  else if inst = RISE then numberToConfig CONFIG_TO_NUMBER_RISE number
  else if inst = TUM then numberToConfig CONFIG_TO_NUMBER_TUM number
  else numberToConfig CONFIG_TO_NUMBER_KIT number

/-- FILE_EXTENSION: glob pattern of the data files per institution. -/
def FILE_EXTENSION : List (String × String) :=
  [(KIT, "*.TXT"), (UTW, "*.csv"), (KUL, "*.csv"), (ECN, "*.csv"),
   (RISE, "*.csv"), (TUM, "*.csv"), (UOB, "*.csv"), (WMG, "*.csv"),
   (JKU, "*.csv"), (IVW, "*.csv")]

/-- The ten institutions for which read has a registered reader and a glob
pattern. -/
def REGISTERED : List String := [KIT, UTW, KUL, ECN, RISE, TUM, UOB, WMG, JKU, IVW]

/-- A glob pattern of the shape *.ext matches a name iff the name ends with
the extension (case-sensitively, as glob is case-sensitive).  Stated on
the character lists of the strings, which is the same suffix test in a
kernel-computable form. -/
def matchesPattern (pat name : String) : Bool :=
  (pat.data.drop 1).isSuffixOf name.data

/-- str.lower() of Python: lowercase every character.  Same function as
String.toLower, written over the character list so that it is
kernel-computable. -/
def strLower (s : String) : String :=
  ⟨s.data.map Char.toLower⟩

/-! ### Tables (column-oriented DataFrames) -/

/-- A DataFrame: ordered named columns of rational values. -/
abbrev Table : Type := List (String × List ℚ)

/-- Reading a column (data[c]); a missing column is a KeyError. -/
def getColE (t : Table) (c : String) : Except Unit (List ℚ) :=
  match t.find? (fun p => p.1 = c) with
  | some p => .ok p.2
  | none => .error ()

/-- Column assignment (data[c] = v): replaces the column in place if
present, else appends it at the end, as pandas does. -/
def setCol (t : Table) (c : String) (v : List ℚ) : Table :=
  match t with
  | [] => [(c, v)]
  | p :: rest => if p.1 = c then (c, v) :: rest else p :: setCol rest c v

/-- First element of a series (data[c][0] after a fresh integer index);
on an empty series pandas raises, modelled as an error. -/
def headE (l : List ℚ) : Except Unit ℚ :=
  match l with
  | [] => .error ()
  | x :: _ => .ok x

/-- Boolean-mask row filtering (data[mask].reset_index(drop=True)): keeps
in every column the entries whose mask position is true. -/
def applyMask (mask : List Bool) (c : List ℚ) : List ℚ :=
  (mask.zip c).filterMap (fun p => if p.1 then some p.2 else none)

def filterRows (t : Table) (mask : List Bool) : Table :=
  t.map (fun p => (p.1, applyMask mask p.2))

/-- pd.read_csv with a names= list: pair the given names with the raw
columns in order; a None name (unused column) is dropped. -/
def applyNaming (names : List (Option String)) (cols : List (List ℚ)) : Table :=
  (names.zip cols).filterMap (fun p => p.1.map (fun nm => (nm, p.2)))

def namesOf (l : List String) : List (Option String) := l.map some

/-- Whether the table has a column of the given name. -/
def hasCol (t : Table) (c : String) : Bool :=
  (t.find? (fun p => p.1 = c)).isSome

/-! ### Per-institution readers, from read.py lines 224 to 305.

Each reader takes the outcome of parsing the file body into raw columns
(an error there models an unreadable or structurally malformed file) and
performs the corrections of its source function.  Failures inside the
reader (missing column, first element of an empty series) are errors too:
in the source these raise and are NOT caught inside the reader. -/

abbrev RawCols : Type := List (List ℚ)

instance {ε α : Type} [DecidableEq ε] [DecidableEq α] : DecidableEq (Except ε α) :=
  fun a b =>
    match a, b with
    | .error e, .error f => decidable_of_iff (e = f) (by simp)
    | .ok x, .ok y => decidable_of_iff (x = y) (by simp)
    | .error _, .ok _ => .isFalse (fun h => Except.noConfusion h)
    | .ok _, .error _ => .isFalse (fun h => Except.noConfusion h)

/-- _read_kit: np.loadtxt, then select columns 0, 2, 3, 4 and name them
per KIT_NAMING.  A file with too few columns raises in numpy. -/
def read_kit (raw : Except Unit RawCols) : Except Unit Table :=
  match raw with
  | .error e => .error e
  | .ok cols =>
    if 5 ≤ cols.length then
      .ok (KIT_NAMING.map (fun p => (p.2, cols.getD p.1 [])))
    else
      .error ()

/-- _read_utw: name columns per UTW_NAMING, then
data[GAP] = -data[GAP]; data[DISPLACEMENT] = data[GAP][0] - data[GAP]. -/
def read_utw (raw : Except Unit RawCols) : Except Unit Table :=
  match raw with
  | .error e => .error e
  | .ok cols =>
    let t0 := applyNaming (namesOf UTW_NAMING) cols
    match getColE t0 GAP with
    | .error e => .error e
    | .ok g =>
      let gneg := g.map (fun x => -x)
      let t1 := setCol t0 GAP gneg
      match headE gneg with
      | .error e => .error e
      | .ok g0 => .ok (setCol t1 DISPLACEMENT (gneg.map (fun x => g0 - x)))

/-- _read_kul: name columns per KUL_NAMING, then
data[FORCE] *= 1000; data[GAP] = 11.0 - data[DISPLACEMENT]. -/
def read_kul (raw : Except Unit RawCols) : Except Unit Table :=
  match raw with
  | .error e => .error e
  | .ok cols =>
    let t0 := applyNaming (namesOf KUL_NAMING) cols
    match getColE t0 FORCE with
    | .error e => .error e
    | .ok f =>
      let t1 := setCol t0 FORCE (f.map (fun x => x * 1000))
      match getColE t1 DISPLACEMENT with
      | .error e => .error e
      | .ok d => .ok (setCol t1 GAP (d.map (fun x => 11 - x)))

/-- _read_jku: name columns per JKU_NAMING; no corrections. -/
def read_jku (raw : Except Unit RawCols) : Except Unit Table :=
  match raw with
  | .error e => .error e
  | .ok cols => .ok (applyNaming (namesOf JKU_NAMING) cols)

/-- _read_tum: name columns per TUM_NAMING, then data[GAP] *= -1;
data[GAP] -= 0.05; keep rows with gap <= 11; reset index;
data[DISPLACEMENT] -= data[DISPLACEMENT][0]. -/
def read_tum (raw : Except Unit RawCols) : Except Unit Table :=
  match raw with
  | .error e => .error e
  | .ok cols =>
    let t0 := applyNaming (namesOf TUM_NAMING) cols
    match getColE t0 GAP with
    | .error e => .error e
    | .ok g =>
      let gneg := g.map (fun x => -x)
      let gadj := gneg.map (fun x => x - (1 / 20 : ℚ))
      let t1 := setCol t0 GAP gadj
      let t2 := filterRows t1 (gadj.map (fun x => decide (x ≤ 11)))
      match getColE t2 DISPLACEMENT with
      | .error e => .error e
      | .ok d =>
        match headE d with
        | .error e => .error e
        | .ok d0 => .ok (setCol t2 DISPLACEMENT (d.map (fun x => x - d0)))

/-- _read_uob: name columns per UOB_NAMING, then data[FORCE] *= -1000;
data[GAP] += 11.0; keep rows with gap <= 11; reset index;
data[DISPLACEMENT] = data[GAP][0] - data[GAP]. -/
def read_uob (raw : Except Unit RawCols) : Except Unit Table :=
  match raw with
  | .error e => .error e
  | .ok cols =>
    let t0 := applyNaming (namesOf UOB_NAMING) cols
    match getColE t0 FORCE with
    | .error e => .error e
    | .ok f =>
      let t1 := setCol t0 FORCE (f.map (fun x => x * (-1000)))
      match getColE t1 GAP with
      | .error e => .error e
      | .ok g =>
        let gadj := g.map (fun x => x + 11)
        let t2 := setCol t1 GAP gadj
        let t3 := filterRows t2 (gadj.map (fun x => decide (x ≤ 11)))
        match getColE t3 GAP with
        | .error e => .error e
        | .ok gf =>
          match headE gf with
          | .error e => .error e
          | .ok g0 => .ok (setCol t3 DISPLACEMENT (gf.map (fun x => g0 - x)))

/-- _read_wmg: name columns per WMG_NAMING, then data[FORCE] *= 1000;
data[DISPLACEMENT] = data[GAP][0] - data[GAP]. -/
def read_wmg (raw : Except Unit RawCols) : Except Unit Table :=
  match raw with
  | .error e => .error e
  | .ok cols =>
    let t0 := applyNaming (namesOf WMG_NAMING) cols
    match getColE t0 FORCE with
    | .error e => .error e
    | .ok f =>
      let t1 := setCol t0 FORCE (f.map (fun x => x * 1000))
      match getColE t1 GAP with
      | .error e => .error e
      | .ok g =>
        match headE g with
        | .error e => .error e
        | .ok g0 => .ok (setCol t1 DISPLACEMENT (g.map (fun x => g0 - x)))

/-- _read_ecn: name columns per ECN_NAMING, then keep rows with
gap <= 11; reset index; data[DISPLACEMENT] = data[GAP][0] - data[GAP]. -/
def read_ecn (raw : Except Unit RawCols) : Except Unit Table :=
  match raw with
  | .error e => .error e
  | .ok cols =>
    let t0 := applyNaming (namesOf ECN_NAMING) cols
    match getColE t0 GAP with
    | .error e => .error e
    | .ok g =>
      let t1 := filterRows t0 (g.map (fun x => decide (x ≤ 11)))
      match getColE t1 GAP with
      | .error e => .error e
      | .ok gf =>
        match headE gf with
        | .error e => .error e
        | .ok g0 => .ok (setCol t1 DISPLACEMENT (gf.map (fun x => g0 - x)))

/-- _read_rise: name columns per RISE_NAMING, then
data[FORCE] *= -1000;
data[GAP] = 41.10 + (data[DISPLACEMENT] - data[DISPLACEMENT].iloc[0]);
keep rows with gap <= 11; reset index;
data[DISPLACEMENT] = data[GAP][0] - data[GAP]. -/
def read_rise (raw : Except Unit RawCols) : Except Unit Table :=
  match raw with
  | .error e => .error e
  | .ok cols =>
    let t0 := applyNaming RISE_NAMING cols
    match getColE t0 FORCE with
    | .error e => .error e
    | .ok f =>
      let t1 := setCol t0 FORCE (f.map (fun x => x * (-1000)))
      match getColE t1 DISPLACEMENT with
      | .error e => .error e
      | .ok d =>
        match headE d with
        | .error e => .error e
        | .ok d0 =>
          let g := d.map (fun x => (411 / 10 : ℚ) + (x - d0))
          let t2 := setCol t1 GAP g
          let t3 := filterRows t2 (g.map (fun x => decide (x ≤ 11)))
          match getColE t3 GAP with
          | .error e => .error e
          | .ok gf =>
            match headE gf with
            | .error e => .error e
            | .ok g0 => .ok (setCol t3 DISPLACEMENT (gf.map (fun x => g0 - x)))

/-- _read_ivw: name columns per IVW_NAMING (the schema itself is modelled
from the spec, see IVW_NAMING), then data[FORCE] *= 1000.  The
skipfooter=1 row drop happens during parsing, inside the raw-columns
abstraction. -/
def read_ivw (raw : Except Unit RawCols) : Except Unit Table :=
  match raw with
  | .error e => .error e
  | .ok cols =>
    let t0 := applyNaming (namesOf IVW_NAMING) cols
    match getColE t0 FORCE with
    | .error e => .error e
    | .ok f => .ok (setCol t0 FORCE (f.map (fun x => x * 1000)))

/-- Dispatch of read.py lines 187 to 208: the if/elif chain over the
institution label; an unknown label falls to the ValueError branch,
modelled by none. -/
def readerFor (inst : String) : Option (Except Unit RawCols → Except Unit Table) :=
  if inst = KIT then some read_kit
  else if inst = UTW then some read_utw
  else if inst = KUL then some read_kul
  else if inst = JKU then some read_jku
  else if inst = ECN then some read_ecn
  else if inst = RISE then some read_rise
  else if inst = TUM then some read_tum
  else if inst = UOB then some read_uob
  else if inst = WMG then some read_wmg
  else if inst = IVW then some read_ivw
  else none

/-! ### Error log filter, from read.py lines 308 to 344 -/

/-- The error.log sidecar as the filesystem presents it: absent,
present but unreadable (OSError / UnicodeDecodeError on open or read),
or readable with a list of lines. -/
inductive LogFile : Type
  | absent : LogFile
  | unreadable : LogFile
  | readable (lines : List String) : LogFile
deriving DecidableEq

/-- Per-line processing of _read_error_log, preserving line order: a line
without a colon is malformed (warn, skip); otherwise the text before the
first colon, stripped, is the filename; if empty, warn and skip, else
record it lowercased.  The inner try/except can never fire (split,
strip and lower do not raise), so it adds no behaviour. -/
def processLogLines : List String → List String × List String
  | [] => ([], [])
  | l :: ls =>
    let rest := processLogLines ls
    if l.contains ':' then
      let filename := ((l.splitOn ":").headD "").trim
      if filename = "" then
        (rest.1, "empty filename" :: rest.2)
      else
        ((strLower filename) :: rest.1, rest.2)
    else
      (rest.1, "malformed line" :: rest.2)

/-- _read_error_log: returns the list of excluded lowercase filenames and
the list of warnings it prints.  A file that cannot be opened or read
(including an absent one, where open raises OSError) yields a warning
and an empty list. -/
def read_error_log : LogFile → List String × List String
  | .absent => ([], ["could not read error log"])
  | .unreadable => ([], ["could not read error log"])
  | .readable lines => processLogLines lines

/-! ### Data files, folders and the catalog -/

/-- A data file of the scanned folder.

Modelled from the spec: decode_filename lives in smc_benchmark._utils,
which is not among the provided sources (only its import and call site in
read.py are).  Per spec section 4.1 it is a pure function from the
filename stem to (prefix, material, sample number), failing with a
DecodeError when no integer suffix is present; its outcome on this
filename is therefore carried as a field (decoded).  The raw field
carries the outcome of parsing the file body into columns; an error
models an unreadable or structurally malformed file. -/
structure DataFile : Type where
  name : String
  decoded : Except Unit (String × String × Nat)
  raw : Except Unit RawCols
deriving DecidableEq

/-- A folder: its data files (in enumeration order) and its error.log. -/
structure Folder : Type where
  files : List DataFile
  log : LogFile
deriving DecidableEq

/-- The exceptions read can raise: FileNotFoundError for a missing folder,
KeyError from FILE_EXTENSION[institution] on an unknown institution,
the (unreachable) ValueError of the dispatch else-branch, the DecodeError
of decode_filename, and the parse failure of a reader. -/
inductive ReadError : Type
  | fileNotFound : ReadError
  | keyError : ReadError
  | valueError : ReadError
  | decodeError : ReadError
  | parseError : ReadError
deriving DecidableEq

/-- The nested catalog: material, then configuration, then sample number
to canonical table.  Python dicts keep insertion order; assignment to an
existing key keeps its position, modelled by the upsert helpers below. -/
abbrev Catalog : Type := List (String × List (String × List (Nat × Table)))

set_option synthInstance.maxSize 4096 in
instance : DecidableEq Catalog := inferInstance

def updSamples (ss : List (Nat × Table)) (num : Nat) (t : Table) : List (Nat × Table) :=
  match ss with
  | [] => [(num, t)]
  | p :: rest => if p.1 = num then (num, t) :: rest else p :: updSamples rest num t

def updSpecs (cs : List (String × List (Nat × Table))) (s : String) (num : Nat)
    (t : Table) : List (String × List (Nat × Table)) :=
  match cs with
  | [] => [(s, [(num, t)])]
  | p :: rest => if p.1 = s then (s, updSamples p.2 num t) :: rest else p :: updSpecs rest s num t

/-- all_data[material][specification][int(number)] = pd_data, with the
implicit creation of the two outer levels on first use (read.py lines
210 to 217). -/
def insertTable (cat : Catalog) (m s : String) (num : Nat) (t : Table) : Catalog :=
  match cat with
  | [] => [(m, [(s, [(num, t)])])]
  | p :: rest => if p.1 = m then (m, updSpecs p.2 s num t) :: rest else p :: insertTable rest m s num t

/-- Total number of leaf tables of the catalog. -/
def leafCount (cat : Catalog) : Nat :=
  (cat.map (fun p => (p.2.map (fun q => q.2.length)).sum)).sum

/-- Python truthiness of the optional material / specification filter:
None and the empty string are falsy. -/
def truthy : Option String → Bool
  | none => false
  | some s => s ≠ ""

/-! ### The catalog builder, read.py lines 102 to 221 -/

/-- The per-file loop of read (lines 155 to 218), carrying the catalog
and n_files_read.  For each file, in order: skip it if its lowercased
name is excluded; decode the filename (an uncaught DecodeError aborts
the call); resolve the configuration from the sample number, where the
KeyError of an unmapped number is caught and the file skipped; apply the
truthy material and specification filters; run the institution reader
(an uncaught parse failure aborts the call); insert the table. -/
def readLoop (inst : String) (erroneous : List String) (mat spec : Option String) :
    List DataFile → Catalog → Nat → Except ReadError (Catalog × Nat)
  | [], cat, n => .ok (cat, n)
  | f :: fs, cat, n =>
    if (strLower f.name) ∈ erroneous then
      readLoop inst erroneous mat spec fs cat n
    else
      match f.decoded with
      | .error _ => .error .decodeError
      | .ok (_, material, number) =>
        match configOf inst number with
        | none => readLoop inst erroneous mat spec fs cat n
        | some specification =>
          if truthy mat ∧ material ≠ mat.getD "" then
            readLoop inst erroneous mat spec fs cat n
          else if truthy spec ∧ spec.getD "" ≠ specification then
            readLoop inst erroneous mat spec fs cat n
          else
            match readerFor inst with
            | none => .error .valueError
            | some reader =>
              match reader f.raw with
              | .error _ => .error .parseError
              | .ok t =>
                readLoop inst erroneous mat spec fs
                  (insertTable cat material specification number t) (n + 1)

/-- The exclusion list read builds (lines 143 to 147): the error-log
filter runs only when the skip flag is set and error.log exists. -/
def erroneousFiles (skipErroneousFiles : Bool) (log : LogFile) : List String :=
  if skipErroneousFiles ∧ log ≠ .absent then (read_error_log log).1 else []

/-- read: the catalog builder.  A missing folder (none) raises
FileNotFoundError; an institution without a glob pattern raises KeyError
at FILE_EXTENSION[institution]; otherwise the files matching the pattern
are processed in order.  The n_files_read count that the source prints is
returned alongside the catalog. -/
def read (inst : String) (folder : Option Folder) (mat spec : Option String)
    (skipErroneousFiles : Bool) : Except ReadError (Catalog × Nat) :=
  match folder with
  | none => .error .fileNotFound
  | some fol =>
    let erroneous := erroneousFiles skipErroneousFiles fol.log
    match FILE_EXTENSION.lookup inst with
    | none => .error .keyError
    | some pat =>
      readLoop inst erroneous mat spec
        (fol.files.filter (fun f => matchesPattern pat f.name)) [] 0

/-- The column-schema registry: an institution schema is either a
positional index map (kit) or an ordered list of column names. -/
inductive ColumnSchema : Type
  | byIndex (m : List (Nat × String)) : ColumnSchema
  | byName (names : List (Option String)) : ColumnSchema

/-- The registry of column schemas: what smc_benchmark._naming exports,
institution by institution, together with the spec-modelled ivw entry
(see IVW_NAMING). -/
def namingOf (inst : String) : Option ColumnSchema :=
  if inst = KIT then some (.byIndex KIT_NAMING)
  else if inst = UTW then some (.byName (namesOf UTW_NAMING))
  else if inst = KUL then some (.byName (namesOf KUL_NAMING))
  else if inst = JKU then some (.byName (namesOf JKU_NAMING))
  else if inst = ECN then some (.byName (namesOf ECN_NAMING))
  else if inst = RISE then some (.byName RISE_NAMING)
  else if inst = TUM then some (.byName (namesOf TUM_NAMING))
  else if inst = UOB then some (.byName (namesOf UOB_NAMING))
  else if inst = WMG then some (.byName (namesOf WMG_NAMING))
  else if inst = IVW then some (.byName (namesOf IVW_NAMING))
  else none

/-- Whether an Except value is a success. -/
def isOkB {ε α : Type} (e : Except ε α) : Bool :=
  match e with
  | .ok _ => true
  | .error _ => false

/-- A data file is fully valid for an institution when its filename
decodes, its sample number has a configuration, and its reader succeeds
on its contents. -/
def validFor (inst : String) (f : DataFile) : Bool :=
  match f.decoded with
  | .error _ => false
  | .ok (_, _, num) =>
    (configOf inst num).isSome &&
      (match readerFor inst with
       | none => false
       | some r => isOkB (r f.raw))

/-- The (material, sample number) pair a file decodes to, if any. -/
def fileKey (f : DataFile) : Option (String × Nat) :=
  match f.decoded with
  | .error _ => none
  | .ok (_, m, num) => some (m, num)

/-- Whether the catalog holds a leaf for material m and sample number
num under any configuration. -/
def catHasPair (cat : Catalog) (m : String) (num : Nat) : Bool :=
  cat.any (fun p => p.1 = m && p.2.any (fun q => q.2.any (fun r => r.1 = num)))

/-! ### Helper lemmas -/

theorem except_bind_ok {ε α β : Type} (a : α) (f : α → Except ε β) :
    ((Except.ok a : Except ε α) >>= f) = f a := rfl

theorem except_bind_error {ε α β : Type} (e : ε) (f : α → Except ε β) :
    ((Except.error e : Except ε α) >>= f) = Except.error e := rfl

theorem except_map_ok {ε α β : Type} (a : α) (f : α → β) :
    Except.map f (Except.ok a : Except ε α) = Except.ok (f a) := rfl

/-! ### Claim C8 -/

/-- C8: for every path that does not exist on disk (folder none), read
raises FileNotFoundError and returns no partial catalog. -/
theorem C8_missing_folder_fatal :
    ∀ (inst : String) (mat spec : Option String) (skip : Bool),
      read inst none mat spec skip = .error .fileNotFound :=
  fun _ _ _ _ => rfl

/-! ### Claim C10 -/

/-- C10: for every institution other than jku, uob, rise and tum (kit,
utw, kul, ecn, wmg, ivw), read resolves the configuration of a sample
number through the inverted KIT table, so these six institutions share
one configuration mapping. -/
theorem C10_non_special_institutions_use_kit_config_map :
    ∀ (inst : String) (n : Nat), inst ∈ [KIT, UTW, KUL, ECN, WMG, IVW] →
      configOf inst n = numberToConfig CONFIG_TO_NUMBER_KIT n := by
  intro inst n h
  simp only [List.mem_cons, List.not_mem_nil, or_false] at h
  rcases h with rfl | rfl | rfl | rfl | rfl | rfl <;>
    simp [configOf, KIT, UTW, KUL, ECN, WMG, IVW, JKU, UOB, RISE, TUM]

/-- Witness for C10 at institution utw and sample number 3. -/
theorem C10_witness :
    UTW ∈ [KIT, UTW, KUL, ECN, WMG, IVW] ∧
      configOf UTW 3 = numberToConfig CONFIG_TO_NUMBER_KIT 3 :=
  ⟨by decide, C10_non_special_institutions_use_kit_config_map UTW 3 (by decide)⟩

/-! ### Claim C3 -/

/-- C3: every institution accepted by read (kit, utw, kul, ecn, rise,
tum, uob, wmg, jku, ivw) has a column-naming schema in the registry and
a registered reader, so read does not fail on a missing schema
definition.  The ivw schema itself is modelled from the spec, because
IVW_NAMING is imported by read.py but not defined in the provided
sources (see IVW_NAMING). -/
theorem C3_schema_registered_for_every_institution :
    ∀ inst : String, inst ∈ REGISTERED →
      (namingOf inst).isSome = true ∧ (readerFor inst).isSome = true := by
  intro inst h
  simp only [REGISTERED, List.mem_cons, List.not_mem_nil, or_false] at h
  rcases h with rfl | rfl | rfl | rfl | rfl | rfl | rfl | rfl | rfl | rfl <;> exact by decide

/-- Witness for C3 at institution ivw. -/
theorem C3_witness :
    IVW ∈ REGISTERED ∧ ((namingOf IVW).isSome = true ∧ (readerFor IVW).isSome = true) :=
  ⟨by decide, C3_schema_registered_for_every_institution IVW (by decide)⟩

/-! ### Claim C9 -/

/-- The canonical table _read_utw produces from raw gap values
[10, -1, 5]: gap negated, displacement recomputed as gap[0] - gap. -/
def utwTable9 : Table :=
  [(TIME, [0, 1, 2]), (GAP, [-10, 1, -5]), (FORCE, [0, 0, 0]),
   ("L1", [0, 0, 0]), ("L2", [0, 0, 0]), (DISPLACEMENT, [0, -11, -5])]

/-- C9: a utw data file with raw gap values [10, -1, 5] mm yields a
canonical table whose gap column is [-10, 1, -5] (the gap := -gap
correction), and the institution-style gap <= 11 row filter applied to
that table drops none of its rows. -/
theorem C9_utw_gap_negation_and_le11_filter_drops_nothing :
    read_utw (.ok [[0, 1, 2], [10, -1, 5], [0, 0, 0], [0, 0, 0], [0, 0, 0]]) =
        .ok utwTable9 ∧
      getColE utwTable9 GAP = .ok [-10, 1, -5] ∧
      filterRows utwTable9
          (([(-10 : ℚ), 1, -5]).map (fun x => decide (x ≤ 11))) = utwTable9 := by
  refine ⟨?_, ?_, ?_⟩
  · simp [read_utw, applyNaming, namesOf, UTW_NAMING, getColE, setCol, headE,
      GAP, TIME, FORCE, DISPLACEMENT, utwTable9, except_bind_ok, except_bind_error]
    norm_num
  · simp [getColE, utwTable9, GAP, TIME]
  · simp [filterRows, applyMask, utwTable9, GAP, TIME, FORCE, DISPLACEMENT,
      List.filterMap_cons]
    norm_num

/-! ### Claim C6 -/

/-- The filename a well-formed error-log line contributes: the text
before the first colon, stripped and lowercased; none for a malformed
line. -/
def logLineFilename (l : String) : Option String :=
  if l.contains ':' then
    if ((l.splitOn ":").headD "").trim = "" then none
    else some (strLower (((l.splitOn ":").headD "").trim))
  else none

/-- Whether an error-log line is malformed (no colon separator, or empty
filename before the colon). -/
def logLineMalformed (l : String) : Bool :=
  !l.contains ':' || ((l.splitOn ":").headD "").trim = ""

theorem processLogLines_spec (lines : List String) :
    (processLogLines lines).1 = lines.filterMap logLineFilename ∧
      (processLogLines lines).2.length = (lines.filter logLineMalformed).length := by
  induction lines with
  | nil => simp [processLogLines]
  | cons l ls ih =>
    by_cases hc : l.contains ':' = true
    · by_cases ht : ((l.splitOn ":").head?.getD "").trim = ""
      · simp [processLogLines, logLineFilename, logLineMalformed, hc, ht,
          List.filterMap_cons, List.filter_cons, ih.1, ih.2]
      · simp [processLogLines, logLineFilename, logLineMalformed, hc, ht,
          List.filterMap_cons, List.filter_cons, ih.1, ih.2]
    · simp [processLogLines, logLineFilename, logLineMalformed, hc,
        List.filterMap_cons, List.filter_cons, ih.1, ih.2]

/-- C6: the error-log filter contract.  A missing error.log yields an
empty exclusion list without error (for either value of the skip flag);
an unreadable error.log yields one warning and an empty exclusion list;
each malformed line (no colon, or empty filename before the colon)
yields a warning and is skipped while processing continues; every
well-formed line contributes the lowercase filename preceding its first
colon, in order. -/
theorem C6_error_log_filter_contract :
    (∀ skip : Bool, erroneousFiles skip .absent = []) ∧
      read_error_log .unreadable = ([], ["could not read error log"]) ∧
      ∀ lines : List String,
        (read_error_log (.readable lines)).1 = lines.filterMap logLineFilename ∧
          (read_error_log (.readable lines)).2.length =
            (lines.filter logLineMalformed).length := by
  refine ⟨?_, rfl, ?_⟩
  · intro skip
    cases skip <;> simp [erroneousFiles]
  · intro lines
    exact ⟨(processLogLines_spec lines).1, (processLogLines_spec lines).2⟩

/-! ### Claim C5 -/

theorem readLoop_drops_excluded (inst : String) (err : List String)
    (mat spec : Option String) :
    ∀ (fs : List DataFile) (cat : Catalog) (n : Nat),
      readLoop inst err mat spec
          (fs.filter (fun f => !decide ((strLower f.name) ∈ err))) cat n =
        readLoop inst err mat spec fs cat n := by
  intro fs
  induction fs with
  | nil => intro cat n; rfl
  | cons f fs ih =>
    intro cat n
    by_cases hmem : (strLower f.name) ∈ err
    · rw [List.filter_cons_of_neg (by simp [hmem])]
      rw [ih cat n]
      conv_rhs => rw [readLoop]
      rw [if_pos hmem]
    · rw [List.filter_cons_of_pos (by simp [hmem])]
      simp only [readLoop]
      rw [if_neg hmem, if_neg hmem]
      rcases hdec : f.decoded with e | ⟨p, m, num⟩
      · simp only [hdec]
      · simp only [hdec]
        cases hcfg : configOf inst num with
        | none => simp only [hcfg]; exact ih cat n
        | some s =>
          simp only [hcfg]
          by_cases h1 : truthy mat = true ∧ m ≠ mat.getD ""
          · rw [if_pos h1, if_pos h1]; exact ih cat n
          · rw [if_neg h1, if_neg h1]
            by_cases h2 : truthy spec = true ∧ spec.getD "" ≠ s
            · rw [if_pos h2, if_pos h2]; exact ih cat n
            · rw [if_neg h2, if_neg h2]
              cases hr : readerFor inst with
              | none => simp only [hr]
              | some r =>
                simp only [hr]
                cases hrr : r f.raw with
                | error e => simp only [hrr]
                | ok t => simp only [hrr]; exact ih (insertTable cat m s num t) (n + 1)

/-- C5: with the skip-erroneous flag set, read over a folder equals read
over the same folder with every file whose lowercased name is in the
exclusion list removed: a file listed (case-insensitively) in error.log
contributes nothing to the catalog, and excluding it raises no error. -/
theorem C5_error_log_excluded_files_contribute_nothing :
    ∀ (inst : String) (fol : Folder) (mat spec : Option String),
      read inst (some fol) mat spec true =
        read inst
          (some { files := fol.files.filter
                    (fun f => !decide ((strLower f.name) ∈ erroneousFiles true fol.log)),
                  log := fol.log })
          mat spec true := by
  intro inst fol mat spec
  simp only [read]
  cases hlk : FILE_EXTENSION.lookup inst with
  | none => rfl
  | some pat =>
    dsimp only
    have hcomm :
        ((fol.files.filter
            (fun f => !decide ((strLower f.name) ∈ erroneousFiles true fol.log))).filter
          (fun f => matchesPattern pat f.name)) =
        ((fol.files.filter (fun f => matchesPattern pat f.name)).filter
          (fun f => !decide ((strLower f.name) ∈ erroneousFiles true fol.log))) := by
      rw [List.filter_filter, List.filter_filter]
      exact List.filter_congr (fun f _ => Bool.and_comm _ _)
    rw [hcomm]
    exact (readLoop_drops_excluded inst (erroneousFiles true fol.log) mat spec
      (fol.files.filter (fun f => matchesPattern pat f.name)) [] 0).symm

/-! ### Claim C7 -/

theorem updSpecs_keys {Q : String → Prop} (s : String) (num : Nat) (t : Table)
    (hs : Q s) :
    ∀ cs : List (String × List (Nat × Table)), (∀ q ∈ cs, Q q.1) →
      ∀ q ∈ updSpecs cs s num t, Q q.1 := by
  intro cs
  induction cs with
  | nil =>
    intro _ q hq
    rw [List.mem_singleton.mp hq]
    exact hs
  | cons c rest ih =>
    intro hcs q hq
    by_cases hc : c.1 = s
    · simp only [updSpecs, if_pos hc] at hq
      rcases List.mem_cons.mp hq with rfl | hq2
      · exact hs
      · exact hcs q (List.mem_cons_of_mem c hq2)
    · simp only [updSpecs, if_neg hc] at hq
      rcases List.mem_cons.mp hq with rfl | hq2
      · exact hcs q (List.mem_cons_self _ _)
      · exact ih (fun x hx => hcs x (List.mem_cons_of_mem c hx)) q hq2

theorem insertTable_keys {P Q : String → Prop} (m s : String) (num : Nat) (t : Table)
    (hm : P m) (hs : Q s) :
    ∀ cat : Catalog, (∀ p ∈ cat, P p.1 ∧ ∀ q ∈ p.2, Q q.1) →
      ∀ p ∈ insertTable cat m s num t, P p.1 ∧ ∀ q ∈ p.2, Q q.1 := by
  intro cat
  induction cat with
  | nil =>
    intro _ p hp
    rw [List.mem_singleton.mp hp]
    refine ⟨hm, ?_⟩
    intro q hq
    rw [List.mem_singleton.mp hq]
    exact hs
  | cons c rest ih =>
    intro hcat p hp
    by_cases hc : c.1 = m
    · simp only [insertTable, if_pos hc] at hp
      rcases List.mem_cons.mp hp with rfl | hp2
      · exact ⟨hm, updSpecs_keys s num t hs c.2 (hcat c (List.mem_cons_self _ _)).2⟩
      · exact hcat p (List.mem_cons_of_mem c hp2)
    · simp only [insertTable, if_neg hc] at hp
      rcases List.mem_cons.mp hp with rfl | hp2
      · exact hcat p (List.mem_cons_self _ _)
      · exact ih (fun x hx => hcat x (List.mem_cons_of_mem c hx)) p hp2

/-- Key invariant of the per-file loop: when every material passing the
material filter satisfies P and every configuration passing the
configuration filter satisfies Q, the loop only inserts keys satisfying
P and Q. -/
theorem readLoop_filter_keys {P Q : String → Prop} (inst : String) (err : List String)
    (mat spec : Option String)
    (HP : ∀ x : String, ¬(truthy mat = true ∧ x ≠ mat.getD "") → P x)
    (HQ : ∀ x : String, ¬(truthy spec = true ∧ spec.getD "" ≠ x) → Q x) :
    ∀ (fs : List DataFile) (cat : Catalog) (n : Nat) (cat' : Catalog) (n' : Nat),
      readLoop inst err mat spec fs cat n = .ok (cat', n') →
      (∀ p ∈ cat, P p.1 ∧ ∀ q ∈ p.2, Q q.1) →
      ∀ p ∈ cat', P p.1 ∧ ∀ q ∈ p.2, Q q.1 := by
  intro fs
  induction fs with
  | nil =>
    intro cat n cat' n' h hcat
    simp only [readLoop, Except.ok.injEq, Prod.mk.injEq] at h
    rw [← h.1]
    exact hcat
  | cons f fs ih =>
    intro cat n cat' n' h hcat
    simp only [readLoop] at h
    by_cases hmem : (strLower f.name) ∈ err
    · rw [if_pos hmem] at h
      exact ih cat n cat' n' h hcat
    · rw [if_neg hmem] at h
      rcases hdec : f.decoded with e | ⟨p, m, num⟩
      · simp only [hdec] at h
        exact Except.noConfusion h
      · simp only [hdec] at h
        cases hcfg : configOf inst num with
        | none =>
          simp only [hcfg] at h
          exact ih cat n cat' n' h hcat
        | some s =>
          simp only [hcfg] at h
          by_cases h1 : truthy mat = true ∧ m ≠ mat.getD ""
          · rw [if_pos h1] at h
            exact ih cat n cat' n' h hcat
          · rw [if_neg h1] at h
            by_cases h2 : truthy spec = true ∧ spec.getD "" ≠ s
            · rw [if_pos h2] at h
              exact ih cat n cat' n' h hcat
            · rw [if_neg h2] at h
              cases hr : readerFor inst with
              | none =>
                simp only [hr] at h
                exact Except.noConfusion h
              | some r =>
                simp only [hr] at h
                cases hrr : r f.raw with
                | error e =>
                  simp only [hrr] at h
                  exact Except.noConfusion h
                | ok t =>
                  simp only [hrr] at h
                  exact ih _ _ cat' n' h
                    (insertTable_keys m s num t (HP m h1) (HQ s h2) cat hcat)

/-- C7: when a material filter is given (truthy), every material key in
the returned catalog equals it, and when a configuration filter is given
(truthy), every configuration key equals it; files with non-matching
material or configuration are therefore excluded from the catalog. -/
theorem C7_material_and_configuration_filters :
    ∀ (inst : String) (fol : Folder) (mat spec : Option String) (skip : Bool)
      (cat : Catalog) (n : Nat),
      read inst (some fol) mat spec skip = .ok (cat, n) →
      ∀ p ∈ cat, (truthy mat = true → p.1 = mat.getD "") ∧
        ∀ q ∈ p.2, (truthy spec = true → q.1 = spec.getD "") := by
  intro inst fol mat spec skip cat n h
  simp only [read] at h
  cases hlk : FILE_EXTENSION.lookup inst with
  | none =>
    rw [hlk] at h
    exact Except.noConfusion h
  | some pat =>
    rw [hlk] at h
    exact readLoop_filter_keys
      (P := fun x => truthy mat = true → x = mat.getD "")
      (Q := fun x => truthy spec = true → x = spec.getD "")
      inst _ mat spec
      (fun x hx => by push_neg at hx; exact hx)
      (fun x hx => by push_neg at hx; exact fun hs => (hx hs).symm)
      _ [] 0 cat n h (by simp)

/-- Raw columns of the one-row jku fixture used in witnesses: time 0,
temperature 20, gap 3, displacement 1, force 5. -/
def jkuColsW : RawCols := [[0], [20], [3], [1], [5]]

/-- The canonical table _read_jku yields from jkuColsW. -/
def jkuTableW : Table :=
  [(TIME, [0]), (TEMP, [20]), (GAP, [3]), (DISPLACEMENT, [1]), (FORCE, [5])]

/-- Witness for C7: a jku folder holding a CF file (configuration
3mm 50x50) and an XX file; filtering on material CF and configuration
3mm 50x50 returns exactly the CF table and only matching keys. -/
theorem C7_witness :
    read JKU
        (some { files :=
                  [{ name := "a_CF_3.csv", decoded := .ok ("a", "CF", 3),
                     raw := .ok jkuColsW },
                   { name := "a_XX_1.csv", decoded := .ok ("a", "XX", 1),
                     raw := .ok jkuColsW }],
                log := .absent })
        (some "CF") (some CONFIG2) true =
      .ok ([("CF", [(CONFIG2, [(3, jkuTableW)])])], 1) ∧
    ∀ p ∈ ([("CF", [(CONFIG2, [(3, jkuTableW)])])] : Catalog),
      (truthy (some "CF") = true → p.1 = (some "CF").getD "") ∧
        ∀ q ∈ p.2, (truthy (some CONFIG2) = true → q.1 = (some CONFIG2).getD "") := by
  have h : read JKU
      (some { files :=
                [{ name := "a_CF_3.csv", decoded := .ok ("a", "CF", 3),
                   raw := .ok jkuColsW },
                 { name := "a_XX_1.csv", decoded := .ok ("a", "XX", 1),
                   raw := .ok jkuColsW }],
              log := .absent })
      (some "CF") (some CONFIG2) true =
      .ok ([("CF", [(CONFIG2, [(3, jkuTableW)])])], 1) := by decide
  exact ⟨h, C7_material_and_configuration_filters JKU _ (some "CF") (some CONFIG2)
    true _ 1 h⟩

/-! ### Claim C1 -/

/-- C1 (amended): inside the per-file loop, only the unmapped sample
number is caught and turned into skip-and-continue; a filename decode
failure aborts the whole call with DecodeError, and an unreadable or
structurally malformed data file (reader failure) aborts the whole call
with ParseError. -/
theorem C1_only_unmapped_number_is_caught_per_file :
    (∀ (inst : String) (err : List String) (mat spec : Option String) (f : DataFile)
        (fs : List DataFile) (cat : Catalog) (n : Nat) (p m : String) (num : Nat),
      (strLower f.name) ∉ err → f.decoded = .ok (p, m, num) → configOf inst num = none →
      readLoop inst err mat spec (f :: fs) cat n = readLoop inst err mat spec fs cat n) ∧
    (∀ (inst : String) (err : List String) (mat spec : Option String) (f : DataFile)
        (fs : List DataFile) (cat : Catalog) (n : Nat),
      (strLower f.name) ∉ err → f.decoded = .error () →
      readLoop inst err mat spec (f :: fs) cat n = .error .decodeError) ∧
    (∀ (inst : String) (err : List String) (mat spec : Option String) (f : DataFile)
        (fs : List DataFile) (cat : Catalog) (n : Nat) (p m : String) (num : Nat)
        (s : String) (r : Except Unit RawCols → Except Unit Table),
      (strLower f.name) ∉ err → f.decoded = .ok (p, m, num) → configOf inst num = some s →
      ¬(truthy mat = true ∧ m ≠ mat.getD "") → ¬(truthy spec = true ∧ spec.getD "" ≠ s) →
      readerFor inst = some r → r f.raw = .error () →
      readLoop inst err mat spec (f :: fs) cat n = .error .parseError) := by
  refine ⟨?_, ?_, ?_⟩
  · intro inst err mat spec f fs cat n p m num hmem hdec hcfg
    simp only [readLoop, if_neg hmem, hdec, hcfg]
  · intro inst err mat spec f fs cat n hmem hdec
    simp only [readLoop, if_neg hmem, hdec]
  · intro inst err mat spec f fs cat n p m num s r hmem hdec hcfg h1 h2 hr hrr
    simp only [readLoop, if_neg hmem, hdec, hcfg, if_neg h1, if_neg h2, hr, hrr]

/-- Witness for C1 at concrete inputs: a jku file with unmapped sample
number 99 is skipped while the loop continues; a file whose filename
fails to decode aborts the loop with DecodeError; a file whose reader
fails aborts the loop with ParseError. -/
theorem C1_witness :
    (configOf JKU 99 = none ∧
      readLoop JKU [] none none
          [{ name := "a_CF_99.csv", decoded := .ok ("a", "CF", 99),
             raw := .ok jkuColsW },
           { name := "a_CF_3.csv", decoded := .ok ("a", "CF", 3),
             raw := .ok jkuColsW }] [] 0 =
        readLoop JKU [] none none
          [{ name := "a_CF_3.csv", decoded := .ok ("a", "CF", 3),
             raw := .ok jkuColsW }] [] 0) ∧
    readLoop JKU [] none none
        [{ name := "bad.csv", decoded := .error (), raw := .ok jkuColsW }] [] 0 =
      .error .decodeError ∧
    readLoop JKU [] none none
        [{ name := "a_CF_3.csv", decoded := .ok ("a", "CF", 3), raw := .error () }]
        [] 0 =
      .error .parseError := by
  refine ⟨⟨by decide, ?_⟩, ?_, ?_⟩
  · exact C1_only_unmapped_number_is_caught_per_file.1 JKU [] none none _ _ [] 0
      "a" "CF" 99 (by decide) (by decide) (by decide)
  · exact C1_only_unmapped_number_is_caught_per_file.2.1 JKU [] none none _ [] [] 0
      (by decide) (by decide)
  · exact C1_only_unmapped_number_is_caught_per_file.2.2 JKU [] none none _ [] [] 0
      "a" "CF" 3 CONFIG2 read_jku (by decide) (by decide) (by decide) (by decide)
      (by decide) rfl rfl

/-- Counterexample to C1 as stated: a directory holding one file whose
filename fails to decode and one perfectly valid file.  The claim says
the failure is caught, the bad file alone is skipped and a catalog is
still returned; the code instead aborts the whole call with DecodeError
and returns no catalog. -/
theorem C1_counterexample :
    validFor JKU
        { name := "a_CF_3.csv", decoded := .ok ("a", "CF", 3), raw := .ok jkuColsW } =
      true ∧
    read JKU
        (some { files :=
                  [{ name := "bad.csv", decoded := .error (), raw := .ok jkuColsW },
                   { name := "a_CF_3.csv", decoded := .ok ("a", "CF", 3),
                     raw := .ok jkuColsW }],
                log := .absent })
        none none true =
      .error .decodeError := by
  constructor
  · decide
  · decide

/-! ### Claim C4 -/

theorem updSamples_any_key (ss : List (Nat × Table)) (num num' : Nat) (t : Table) :
    ((updSamples ss num t).any (fun r => r.1 = num') = true) ↔
      (ss.any (fun r => r.1 = num') = true ∨ num = num') := by
  induction ss with
  | nil => simp [updSamples]
  | cons c rest ih =>
    by_cases hc : c.1 = num
    · simp [updSamples, hc]
      tauto
    · simp [updSamples, hc, List.any_cons] at ih ⊢
      tauto

theorem updSamples_length (ss : List (Nat × Table)) (num : Nat) (t : Table) :
    (updSamples ss num t).length =
      if ss.any (fun r => r.1 = num) = true then ss.length else ss.length + 1 := by
  induction ss with
  | nil => simp [updSamples]
  | cons c rest ih =>
    by_cases hc : c.1 = num
    · simp [updSamples, hc]
    · simp only [updSamples, if_neg hc, List.length_cons, List.any_cons, ih]
      have hd : decide (c.1 = num) = false := by simp [hc]
      rw [hd]
      by_cases h2 : rest.any (fun r => decide (r.1 = num)) = true
      · simp [h2]
      · simp [h2]

theorem updSpecs_sum_of_fresh (s : String) (num : Nat) (t : Table) :
    ∀ cs : List (String × List (Nat × Table)),
      cs.any (fun q => q.2.any (fun r => r.1 = num)) = false →
      ((updSpecs cs s num t).map (fun q => q.2.length)).sum =
        (cs.map (fun q => q.2.length)).sum + 1 := by
  intro cs
  induction cs with
  | nil => intro _; simp [updSpecs]
  | cons c rest ih =>
    intro h
    simp only [List.any_cons, Bool.or_eq_false_iff] at h
    by_cases hc : c.1 = s
    · simp only [updSpecs, if_pos hc, List.map_cons, List.sum_cons, updSamples_length]
      rw [if_neg (by simp [h.1])]
      omega
    · simp only [updSpecs, if_neg hc, List.map_cons, List.sum_cons, ih h.2]
      omega

theorem updSpecs_any_num (s : String) (num num' : Nat) (t : Table) :
    ∀ cs : List (String × List (Nat × Table)),
      ((updSpecs cs s num t).any (fun q => q.2.any (fun r => r.1 = num')) = true) ↔
        (cs.any (fun q => q.2.any (fun r => r.1 = num')) = true ∨ num = num') := by
  intro cs
  induction cs with
  | nil => simp [updSpecs, updSamples]
  | cons c rest ih =>
    by_cases hc : c.1 = s
    · have h1 := updSamples_any_key c.2 num num' t
      simp only [updSpecs, if_pos hc, List.any_cons, Bool.or_eq_true] at h1 ⊢
      tauto
    · simp only [updSpecs, if_neg hc, List.any_cons, Bool.or_eq_true] at ih ⊢
      tauto

theorem leafCount_insertTable_of_fresh (m s : String) (num : Nat) (t : Table) :
    ∀ cat : Catalog, catHasPair cat m num = false →
      leafCount (insertTable cat m s num t) = leafCount cat + 1 := by
  intro cat
  induction cat with
  | nil => intro _; simp [insertTable, leafCount, updSpecs]
  | cons c rest ih =>
    intro h
    simp only [catHasPair, List.any_cons, Bool.or_eq_false_iff] at h
    by_cases hc : c.1 = m
    · simp only [insertTable, if_pos hc, leafCount, List.map_cons, List.sum_cons]
      rw [updSpecs_sum_of_fresh s num t c.2 (by simpa [hc] using h.1)]
      omega
    · simp only [insertTable, if_neg hc, leafCount, List.map_cons, List.sum_cons]
      have := ih (by simpa [catHasPair] using h.2)
      simp only [leafCount] at this
      omega

theorem catHasPair_insertTable (m s : String) (num : Nat) (t : Table) (m' : String)
    (num' : Nat) :
    ∀ cat : Catalog,
      (catHasPair (insertTable cat m s num t) m' num' = true) ↔
        (catHasPair cat m' num' = true ∨ (m = m' ∧ num = num')) := by
  intro cat
  induction cat with
  | nil =>
    simp [insertTable, catHasPair, updSpecs, updSamples]
  | cons c rest ih =>
    by_cases hc : c.1 = m
    · have h1 := updSpecs_any_num s num num' t c.2
      simp only [catHasPair, insertTable, if_pos hc, List.any_cons, Bool.or_eq_true,
        Bool.and_eq_true, decide_eq_true_eq] at h1 ih ⊢
      rw [hc]
      tauto
    · simp only [catHasPair, insertTable, if_neg hc, List.any_cons, Bool.or_eq_true,
        Bool.and_eq_true, decide_eq_true_eq] at ih ⊢
      tauto

/-- Counting invariant of the per-file loop with no exclusions and no
filters: fully valid files with pairwise distinct (material, number)
keys, all fresh for the catalog, are each read and inserted as one new
leaf. -/
theorem readLoop_counts_valid_files (inst : String) :
    ∀ (fs : List DataFile) (cat : Catalog) (n : Nat),
      (∀ f ∈ fs, validFor inst f = true) →
      List.Pairwise (fun f g => fileKey f ≠ fileKey g) fs →
      (∀ f ∈ fs, ∀ m num, fileKey f = some (m, num) → catHasPair cat m num = false) →
      ∃ cat', readLoop inst [] none none fs cat n = .ok (cat', n + fs.length) ∧
        leafCount cat' = leafCount cat + fs.length := by
  intro fs
  induction fs with
  | nil =>
    intro cat n _ _ _
    exact ⟨cat, by simp [readLoop], by simp⟩
  | cons f fs ih =>
    intro cat n hval hpair hfresh
    have hv := hval f (List.mem_cons_self _ _)
    rcases hdec : f.decoded with e | ⟨p, m, num⟩
    · simp only [validFor, hdec] at hv
      exact absurd hv (by simp)
    · simp only [validFor, hdec] at hv
      rw [Bool.and_eq_true] at hv
      obtain ⟨hcfg', hrd⟩ := hv
      rcases hcfg : configOf inst num with _ | s
      · rw [hcfg] at hcfg'
        simp at hcfg'
      · rcases hr : readerFor inst with _ | r
        · simp only [hr] at hrd
          exact absurd hrd (by simp)
        · simp only [hr] at hrd
          rcases hrr : r f.raw with e2 | t
          · rw [hrr] at hrd
            simp [isOkB] at hrd
          · have hkey : fileKey f = some (m, num) := by simp [fileKey, hdec]
            have hfresh0 : catHasPair cat m num = false :=
              hfresh f (List.mem_cons_self _ _) m num hkey
            have hstep : readLoop inst [] none none (f :: fs) cat n =
                readLoop inst [] none none fs (insertTable cat m s num t) (n + 1) := by
              simp only [readLoop, hdec, hcfg, hr, hrr]
              rw [if_neg (List.not_mem_nil _)]
              rw [if_neg (by simp [truthy]), if_neg (by simp [truthy])]
            obtain ⟨cat', hloop, hcount⟩ := ih (insertTable cat m s num t) (n + 1)
              (fun g hg => hval g (List.mem_cons_of_mem f hg))
              ((List.pairwise_cons.mp hpair).2)
              (by
                intro g hg mg ng hkg
                rw [Bool.eq_false_iff]
                intro htrue
                rcases (catHasPair_insertTable m s num t mg ng cat).mp htrue with
                  hold | ⟨hm2, hn2⟩
                · rw [hfresh g (List.mem_cons_of_mem f hg) mg ng hkg] at hold
                  exact Bool.false_ne_true hold
                · have hne := (List.pairwise_cons.mp hpair).1 g hg
                  rw [hkey, hkg, hm2, hn2] at hne
                  exact hne rfl)
            have hlen : (n + 1) + fs.length = n + (f :: fs).length := by
              simp [List.length_cons]
              omega
            rw [hlen] at hloop
            refine ⟨cat', hstep.trans hloop, ?_⟩
            rw [hcount, leafCount_insertTable_of_fresh m s num t cat hfresh0,
              List.length_cons]
            omega

/-- C4 (amended): a folder of N valid files of the institution, all
matching its extension pattern and with pairwise distinct
(material, sample number) keys, with no error log and no filters, is
read completely: n_files_read = N and the catalog holds N leaf tables.
(The distinctness proviso is forced by the counterexample: the catalog
silently overwrites a duplicate (material, configuration, number) key,
so with duplicates the leaf count drops below N while n_files_read
still counts every file.) -/
theorem C4_round_trip_counts_with_distinct_keys :
    ∀ (inst pat : String) (fol : Folder) (skip : Bool),
      FILE_EXTENSION.lookup inst = some pat →
      fol.log = .absent →
      (∀ f ∈ fol.files, matchesPattern pat f.name = true ∧ validFor inst f = true) →
      List.Pairwise (fun f g => fileKey f ≠ fileKey g) fol.files →
      ∃ cat, read inst (some fol) none none skip = .ok (cat, fol.files.length) ∧
        leafCount cat = fol.files.length := by
  intro inst pat fol skip hlk hlog hval hpair
  obtain ⟨cat, hloop, hcount⟩ := readLoop_counts_valid_files inst fol.files [] 0
    (fun f hf => (hval f hf).2) hpair
    (fun f _ m num _ => by simp [catHasPair])
  refine ⟨cat, ?_, by simpa [leafCount] using hcount⟩
  simp only [read, hlk, hlog]
  rw [show erroneousFiles skip LogFile.absent = [] from by simp [erroneousFiles]]
  rw [List.filter_eq_self.mpr (fun f hf => by simp [(hval f hf).1])]
  simpa using hloop

/-- A second one-row jku fixture with a different force value, decoding
to the same material CF and the same sample number 3 as the first. -/
def jkuColsW2 : RawCols := [[0], [21], [3], [1], [7]]

/-- The canonical table _read_jku yields from jkuColsW2. -/
def jkuTableW2 : Table :=
  [(TIME, [0]), (TEMP, [21]), (GAP, [3]), (DISPLACEMENT, [1]), (FORCE, [7])]

/-- Witness for C4 at a concrete folder of two valid jku files with
distinct sample numbers 3 and 7. -/
theorem C4_witness :
    FILE_EXTENSION.lookup JKU = some "*.csv" ∧
    ∃ cat, read JKU
        (some { files :=
                  [{ name := "a_CF_3.csv", decoded := .ok ("a", "CF", 3),
                     raw := .ok jkuColsW },
                   { name := "a_CF_7.csv", decoded := .ok ("a", "CF", 7),
                     raw := .ok jkuColsW2 }],
                log := .absent })
        none none true =
      .ok (cat, 2) ∧ leafCount cat = 2 := by
  refine ⟨by decide, ?_⟩
  exact C4_round_trip_counts_with_distinct_keys JKU "*.csv"
    { files :=
        [{ name := "a_CF_3.csv", decoded := .ok ("a", "CF", 3), raw := .ok jkuColsW },
         { name := "a_CF_7.csv", decoded := .ok ("a", "CF", 7), raw := .ok jkuColsW2 }],
      log := .absent } true (by decide) rfl (by decide)
    (by
      constructor
      · intro g hg
        intro hcontra
        simp only [List.mem_singleton] at hg
        rw [hg] at hcontra
        exact absurd hcontra (by decide)
      · simp)

/-- Counterexample to C4 as stated: two valid jku files that decode to
the same material CF and the same sample number 3.  Both are read
(n_files_read = 2 = N) but the second silently overwrites the first in
the catalog, whose total leaf count is 1, not N. -/
theorem C4_counterexample :
    (∀ f ∈ [({ name := "a_CF_3.csv", decoded := .ok ("a", "CF", 3),
               raw := .ok jkuColsW } : DataFile),
            { name := "b_CF_3.csv", decoded := .ok ("b", "CF", 3),
              raw := .ok jkuColsW2 }],
      matchesPattern "*.csv" f.name = true ∧ validFor JKU f = true) ∧
    read JKU
        (some { files :=
                  [{ name := "a_CF_3.csv", decoded := .ok ("a", "CF", 3),
                     raw := .ok jkuColsW },
                   { name := "b_CF_3.csv", decoded := .ok ("b", "CF", 3),
                     raw := .ok jkuColsW2 }],
                log := .absent })
        none none true =
      .ok ([("CF", [(CONFIG2, [(3, jkuTableW2)])])], 2) ∧
    leafCount [("CF", [(CONFIG2, [(3, jkuTableW2)])])] = 1 := by
  refine ⟨by decide, by decide, by decide⟩

/-! ### Claim C2 -/

theorem gapForce_read_kit (cols : RawCols) (tb : Table)
    (h : read_kit (.ok cols) = .ok tb) :
    hasCol tb GAP = true ∧ hasCol tb FORCE = true := by
  simp only [read_kit] at h
  by_cases hlen : 5 ≤ cols.length
  · rw [if_pos hlen] at h
    obtain rfl := (Except.ok.injEq _ _).mp h
    simp [hasCol, KIT_NAMING, GAP, TIME, FORCE, DISPLACEMENT]
  · rw [if_neg hlen] at h
    exact Except.noConfusion h

theorem gapForce_read_utw (c0 c1 c2 c3 c4 : List ℚ) (tb : Table)
    (h : read_utw (.ok [c0, c1, c2, c3, c4]) = .ok tb) :
    hasCol tb GAP = true ∧ hasCol tb FORCE = true ∧
      ∃ g0 gtail, c1.map (fun x => -x) = g0 :: gtail ∧
        getColE tb GAP = .ok (g0 :: gtail) ∧
        getColE tb DISPLACEMENT = .ok ((g0 :: gtail).map (fun x => g0 - x)) := by
  simp [read_utw, applyNaming, namesOf, UTW_NAMING, getColE, setCol,
    GAP, TIME, FORCE, DISPLACEMENT] at h
  rcases hmap : List.map (fun x => -x) c1 with _ | ⟨x, xs⟩
  · rw [hmap] at h
    simp [headE] at h
  · rw [hmap] at h
    simp only [headE] at h
    obtain rfl := (Except.ok.injEq _ _).mp h
    refine ⟨by simp [hasCol, GAP], by simp [hasCol, FORCE, GAP],
      x, xs, rfl, by simp [getColE, GAP], ?_⟩
    have hcomp := congrArg (List.map (fun z => x - z)) hmap
    rw [List.map_map] at hcomp
    simp [getColE, hcomp, DISPLACEMENT, GAP, TIME, FORCE]

theorem gapForce_read_kul (c0 c1 c2 : List ℚ) (tb : Table)
    (h : read_kul (.ok [c0, c1, c2]) = .ok tb) :
    hasCol tb GAP = true ∧ hasCol tb FORCE = true := by
  simp [read_kul, applyNaming, namesOf, KUL_NAMING, getColE, setCol,
    GAP, TIME, FORCE, DISPLACEMENT] at h
  subst h
  constructor <;> simp [hasCol, GAP, FORCE]

theorem gapForce_read_jku (c0 c1 c2 c3 c4 : List ℚ) (tb : Table)
    (h : read_jku (.ok [c0, c1, c2, c3, c4]) = .ok tb) :
    hasCol tb GAP = true ∧ hasCol tb FORCE = true := by
  simp [read_jku, applyNaming, namesOf, JKU_NAMING] at h
  subst h
  constructor <;> simp [hasCol, GAP, TIME, TEMP, FORCE, DISPLACEMENT]

theorem gapForce_read_ecn (c0 c1 c2 c3 c4 : List ℚ) (tb : Table)
    (h : read_ecn (.ok [c0, c1, c2, c3, c4]) = .ok tb) :
    hasCol tb GAP = true ∧ hasCol tb FORCE = true := by
  simp [read_ecn, applyNaming, namesOf, ECN_NAMING, getColE, setCol, filterRows,
    applyMask, GAP, TIME, TEMP, FORCE, DISPLACEMENT] at h
  split at h
  · exact Except.noConfusion h
  · obtain rfl := (Except.ok.injEq _ _).mp h
    constructor <;> simp [hasCol, GAP, FORCE]

theorem gapForce_read_rise (c0 c1 c2 c3 c4 c5 c6 c7 c8 : List ℚ) (tb : Table)
    (h : read_rise (.ok [c0, c1, c2, c3, c4, c5, c6, c7, c8]) = .ok tb) :
    hasCol tb GAP = true ∧ hasCol tb FORCE = true := by
  simp [read_rise, applyNaming, RISE_NAMING, getColE, setCol, filterRows,
    applyMask, GAP, TIME, TEMP, FORCE, DISPLACEMENT] at h
  rcases hd : headE c6 with e | d0
  · rw [hd] at h
    simp at h
  · rw [hd] at h
    simp at h
    split at h
    · exact Except.noConfusion h
    · obtain rfl := (Except.ok.injEq _ _).mp h
      constructor <;> simp [hasCol, GAP, FORCE]

theorem gapForce_read_tum (c0 c1 c2 c3 : List ℚ) (tb : Table)
    (h : read_tum (.ok [c0, c1, c2, c3]) = .ok tb) :
    hasCol tb GAP = true ∧ hasCol tb FORCE = true := by
  simp [read_tum, applyNaming, namesOf, TUM_NAMING, getColE, setCol, filterRows,
    applyMask, GAP, TIME, TEMP, FORCE, DISPLACEMENT] at h
  split at h
  · exact Except.noConfusion h
  · obtain rfl := (Except.ok.injEq _ _).mp h
    constructor <;> simp [hasCol, GAP, FORCE]

theorem gapForce_read_uob (c0 c1 c2 c3 c4 c5 c6 c7 : List ℚ) (tb : Table)
    (h : read_uob (.ok [c0, c1, c2, c3, c4, c5, c6, c7]) = .ok tb) :
    hasCol tb GAP = true ∧ hasCol tb FORCE = true := by
  simp [read_uob, applyNaming, namesOf, UOB_NAMING, getColE, setCol, filterRows,
    applyMask, GAP, TIME, TEMP, FORCE, DISPLACEMENT] at h
  split at h
  · exact Except.noConfusion h
  · obtain rfl := (Except.ok.injEq _ _).mp h
    constructor <;> simp [hasCol, GAP, FORCE]

theorem gapForce_read_wmg (c0 c1 c2 c3 c4 c5 c6 c7 c8 : List ℚ) (tb : Table)
    (h : read_wmg (.ok [c0, c1, c2, c3, c4, c5, c6, c7, c8]) = .ok tb) :
    hasCol tb GAP = true ∧ hasCol tb FORCE = true := by
  simp [read_wmg, applyNaming, namesOf, WMG_NAMING, getColE, setCol,
    GAP, TIME, TEMP, FORCE, DISPLACEMENT] at h
  rcases hh : headE c1 with e | g0
  · rw [hh] at h
    simp at h
  · rw [hh] at h
    simp at h
    obtain rfl := h.symm
    constructor <;> simp [hasCol, GAP, FORCE]

theorem gapForce_read_ivw (c0 c1 c2 : List ℚ) (tb : Table)
    (h : read_ivw (.ok [c0, c1, c2]) = .ok tb) :
    hasCol tb GAP = true ∧ hasCol tb FORCE = true := by
  simp [read_ivw, applyNaming, namesOf, IVW_NAMING, getColE, setCol,
    GAP, TIME, FORCE] at h
  subst h
  constructor <;> simp [hasCol, GAP, FORCE]

/-- C2 (amended): for every registered institution, whenever its reader
returns a canonical table from a raw file with that institution's column
count, the table contains both the gap and the force column (with the
unit conversions of the source applied).  For the utw reader, the
recomputed displacement column equals initial corrected gap minus
corrected gap row-wise, so displacement increases exactly as gap
decreases from its initial value.  Non-negativity of displacement is not
guaranteed (see the counterexample: kit and jku pass displacement
through unchanged, and the recomputed displacement of utw is negative
whenever gap exceeds its initial value). -/
theorem C2_canonical_table_gap_force :
    (∀ (cols : RawCols) (tb : Table), read_kit (.ok cols) = .ok tb →
      hasCol tb GAP = true ∧ hasCol tb FORCE = true) ∧
    (∀ (c0 c1 c2 c3 c4 : List ℚ) (tb : Table),
      read_utw (.ok [c0, c1, c2, c3, c4]) = .ok tb →
      hasCol tb GAP = true ∧ hasCol tb FORCE = true ∧
        ∃ g0 gtail, c1.map (fun x => -x) = g0 :: gtail ∧
          getColE tb GAP = .ok (g0 :: gtail) ∧
          getColE tb DISPLACEMENT = .ok ((g0 :: gtail).map (fun x => g0 - x))) ∧
    (∀ (c0 c1 c2 : List ℚ) (tb : Table), read_kul (.ok [c0, c1, c2]) = .ok tb →
      hasCol tb GAP = true ∧ hasCol tb FORCE = true) ∧
    (∀ (c0 c1 c2 c3 c4 : List ℚ) (tb : Table),
      read_ecn (.ok [c0, c1, c2, c3, c4]) = .ok tb →
      hasCol tb GAP = true ∧ hasCol tb FORCE = true) ∧
    (∀ (c0 c1 c2 c3 c4 c5 c6 c7 c8 : List ℚ) (tb : Table),
      read_rise (.ok [c0, c1, c2, c3, c4, c5, c6, c7, c8]) = .ok tb →
      hasCol tb GAP = true ∧ hasCol tb FORCE = true) ∧
    (∀ (c0 c1 c2 c3 : List ℚ) (tb : Table), read_tum (.ok [c0, c1, c2, c3]) = .ok tb →
      hasCol tb GAP = true ∧ hasCol tb FORCE = true) ∧
    (∀ (c0 c1 c2 c3 c4 c5 c6 c7 : List ℚ) (tb : Table),
      read_uob (.ok [c0, c1, c2, c3, c4, c5, c6, c7]) = .ok tb →
      hasCol tb GAP = true ∧ hasCol tb FORCE = true) ∧
    (∀ (c0 c1 c2 c3 c4 c5 c6 c7 c8 : List ℚ) (tb : Table),
      read_wmg (.ok [c0, c1, c2, c3, c4, c5, c6, c7, c8]) = .ok tb →
      hasCol tb GAP = true ∧ hasCol tb FORCE = true) ∧
    (∀ (c0 c1 c2 c3 c4 : List ℚ) (tb : Table),
      read_jku (.ok [c0, c1, c2, c3, c4]) = .ok tb →
      hasCol tb GAP = true ∧ hasCol tb FORCE = true) ∧
    (∀ (c0 c1 c2 : List ℚ) (tb : Table), read_ivw (.ok [c0, c1, c2]) = .ok tb →
      hasCol tb GAP = true ∧ hasCol tb FORCE = true) :=
  ⟨gapForce_read_kit, gapForce_read_utw, gapForce_read_kul, gapForce_read_ecn,
    gapForce_read_rise, gapForce_read_tum, gapForce_read_uob, gapForce_read_wmg,
    gapForce_read_jku, gapForce_read_ivw⟩

/-- The table _read_jku returns for a structurally well-formed one-row
file whose raw displacement value is -1. -/
def jkuTableNeg : Table :=
  [(TIME, [0]), (TEMP, [20]), (GAP, [3]), (DISPLACEMENT, [-1]), (FORCE, [5])]

/-- Counterexample to C2 as stated: the jku reader applies no correction
at all, so a well-formed jku file carrying a negative raw displacement
yields a canonical table whose displacement column is negative,
violating the claimed sign convention (displacement non-negative). -/
theorem C2_counterexample :
    read_jku (.ok [[0], [20], [3], [-1], [5]]) = .ok jkuTableNeg ∧
      getColE jkuTableNeg DISPLACEMENT = .ok [-1] ∧ ¬ (0 : ℚ) ≤ -1 := by
  refine ⟨by decide, by decide, by norm_num⟩

/-- Witness for C2 at the concrete jku fixture jkuColsW. -/
theorem C2_witness :
    read_jku (.ok jkuColsW) = .ok jkuTableW ∧
      hasCol jkuTableW GAP = true ∧ hasCol jkuTableW FORCE = true := by
  have h : read_jku (.ok [[0], [20], [3], [1], [5]]) = .ok jkuTableW := by decide
  exact ⟨h, C2_canonical_table_gap_force.2.2.2.2.2.2.2.2.1 [0] [20] [3] [1] [5]
    jkuTableW h⟩

end SMC
